import Mathlib

/-!
Verification of the malewa-fac backend's order / fee / settlement core.

Shallow embedding conventions:
* JS numbers are modelled as `ℚ` (the arithmetic in the repository is exact
  except for `Math.round`, embedded as `jsRound` below).
* `prisma.x.findUnique` / `findFirst` over a table are modelled as
  `List.find?` over a list of rows.
* Fallible handlers return `Except (Nat × String)` carrying the HTTP status
  code and the error message used by the route.
* Status strings are kept as strings, exactly as the source compares them.
-/

namespace MalewaFac

/-- JavaScript `Math.max` on two rationals. -/
def jsMax (a b : ℚ) : ℚ := if a ≤ b then b else a

/-- JavaScript `Math.round`: round half toward positive infinity. -/
def jsRound (q : ℚ) : ℚ := ((⌊q + 1 / 2⌋ : ℤ) : ℚ)

theorem jsMax_eq_max (a b : ℚ) : jsMax a b = max a b := by
  simp only [jsMax, max_def]

theorem jsRound_eq_round (q : ℚ) : jsRound q = ((round q : ℤ) : ℚ) := by
  simp only [jsRound, round_eq]

/-- The four pricing parameters read from the `Setting` table by
`getSetting` (src/src/utils/settings.ts); modelled as an abstract record
since the claims quantify over admin-configurable settings. -/
structure FeeSettings where
  SERVICE_FEE : ℚ
  CAMPUS_DELIVERY_FEE : ℚ
  OFF_CAMPUS_RATE_PER_KM : ℚ
  OFF_CAMPUS_MIN_FEE : ℚ
deriving DecidableEq

/-- `getFees` from src/src/utils/settings.ts (lines 8-23).
`method` defaults to `"campus"` and `km` to `1` via `??` (nullish
coalescing: an explicit `0` is kept).  Any method other than `"pickup"`
and `"campus"` falls into the final `else` (the off-campus computation);
the supplied `km` is used as-is, with no clamp to 1. -/
def getFees (fs : FeeSettings) (method : Option String) (km : Option ℚ) : ℚ × ℚ :=
  let m := method.getD "campus"
  let k := km.getD 1
  let deliveryFee : ℚ :=
    if m = "pickup" then 0
    else if m = "campus" then fs.CAMPUS_DELIVERY_FEE
    else jsMax fs.OFF_CAMPUS_MIN_FEE (jsRound (k * fs.OFF_CAMPUS_RATE_PER_KM))
  (fs.SERVICE_FEE, deliveryFee)

/-- The delivery-fee computation of the pricing preview route
`GET pricing/delivery` (src/src/modules/payments/stripeWebhook.ts,
lines 98-104 and 133-139).  `method` comes from
`String(req.query.method || 'campus')` (missing or empty string becomes
`"campus"`); the off-campus distance is `Math.max(1, Number(km || 1))`
(missing or zero km becomes 1, then clamped to at least 1); an unknown
method is rejected with HTTP 400 "Invalid method". -/
def pricingDeliveryFee (fs : FeeSettings) (method : Option String) (km : Option ℚ) :
    Except (Nat × String) ℚ :=
  let m := match method with
    | none => "campus"
    | some s => if s = "" then "campus" else s
  if m = "pickup" then .ok 0
  else if m = "campus" then .ok fs.CAMPUS_DELIVERY_FEE
  else if m = "offcampus" then
    let kmv : ℚ := match km with
      | none => 1
      | some k => if k = 0 then 1 else k
    let dist := jsMax 1 kmv
    .ok (jsMax fs.OFF_CAMPUS_MIN_FEE (jsRound (dist * fs.OFF_CAMPUS_RATE_PER_KM)))
  else .error (400, "Invalid method")

/-- The off-campus delivery-fee formula as the spec words it:
`max(OFF_CAMPUS_MIN_FEE, round(max(distanceKm,1) × OFF_CAMPUS_RATE_PER_KM))`,
with a missing distance billed as 1 km.  Stated from the spec's words, to
be compared with the code's `getFees` and `pricingDeliveryFee`. -/
def claimedOffCampusFee (fs : FeeSettings) (km : Option ℚ) : ℚ :=
  jsMax fs.OFF_CAMPUS_MIN_FEE (jsRound (jsMax (km.getD 1) 1 * fs.OFF_CAMPUS_RATE_PER_KM))

/-- Effective unit price of one order line
(src/src/modules/orders/service.ts line 35):
`(item.customPrice && item.customPrice > dish.price) ? item.customPrice : dish.price`.
A missing override or an override of `0` (falsy) yields the catalog price. -/
def effectivePrice (price : ℚ) (customPrice : Option ℚ) : ℚ :=
  match customPrice with
  | none => price
  | some c => if c ≠ 0 ∧ price < c then c else price

/-- Claim C5: the effective unit price equals the catalog price unless a
(positive, per the zod DTO) client override is supplied and is strictly
greater than the catalog price, in which case the override is used; an
override at or below the catalog price is ignored. -/
theorem effectivePrice_no_undercut (price : ℚ) (cp : Option ℚ)
    (hpos : ∀ c : ℚ, cp = some c → 0 < c) :
    (cp = none → effectivePrice price cp = price) ∧
    (∀ c : ℚ, cp = some c → price < c → effectivePrice price cp = c) ∧
    (∀ c : ℚ, cp = some c → c ≤ price → effectivePrice price cp = price) := by
  refine ⟨?_, ?_, ?_⟩
  · rintro rfl
    rfl
  · rintro c rfl hlt
    have hc : (0 : ℚ) < c := hpos c rfl
    show (if c ≠ 0 ∧ price < c then c else price) = c
    rw [if_pos ⟨hc.ne', hlt⟩]
  · rintro c rfl hle
    show (if c ≠ 0 ∧ price < c then c else price) = price
    rw [if_neg]
    exact fun h => absurd h.2 (not_lt.mpr hle)

/-- Witness for C5 at catalog price 3000 and override 5000. -/
theorem effectivePrice_no_undercut_witness :
    (∀ c : ℚ, some (5000 : ℚ) = some c → 0 < c) ∧
    ((some (5000 : ℚ) = none → effectivePrice 3000 (some 5000) = 3000) ∧
     (∀ c : ℚ, some (5000 : ℚ) = some c → 3000 < c → effectivePrice 3000 (some 5000) = c) ∧
     (∀ c : ℚ, some (5000 : ℚ) = some c → c ≤ 3000 → effectivePrice 3000 (some 5000) = 3000)) :=
  ⟨fun c h => by
      injection h with h2
      rw [← h2]
      norm_num,
   effectivePrice_no_undercut 3000 (some 5000) (fun c h => by
      injection h with h2
      rw [← h2]
      norm_num)⟩

/-- Counterexample to claim C6 as stated: with settings
`OFF_CAMPUS_RATE_PER_KM = 3000`, `OFF_CAMPUS_MIN_FEE = 2000` and an
explicit `distanceKm = 0`, `getFees` bills the distance as 0 km (its `??
1` default keeps an explicit 0) and returns `max(2000, round(0)) = 2000`,
while the claimed formula bills 1 km and yields `3000`. -/
theorem offCampusFee_claim_counterexample :
    (getFees ⟨1000, 1000, 3000, 2000⟩ (some "offcampus") (some 0)).2 ≠
      claimedOffCampusFee ⟨1000, 1000, 3000, 2000⟩ (some 0) := by
  have h1 : (getFees ⟨1000, 1000, 3000, 2000⟩ (some "offcampus") (some 0)).2 = 2000 := by
    norm_num [getFees, jsMax, jsRound]
    decide
  have h2 : claimedOffCampusFee ⟨1000, 1000, 3000, 2000⟩ (some 0) = 3000 := by
    norm_num [claimedOffCampusFee, jsMax, jsRound]
  rw [h1, h2]
  norm_num

/-- Claim C6 amended: the pricing-preview computation satisfies the claimed
formula `max(OFF_CAMPUS_MIN_FEE, round(max(distanceKm,1) ×
OFF_CAMPUS_RATE_PER_KM))` exactly (missing or zero distance billed as
1 km); `getFees`, used at order creation, defaults only a *missing*
distance to 1 km and otherwise uses the supplied distance without the 1 km
clamp; in both computations the resulting fee is ≥ OFF_CAMPUS_MIN_FEE for
every distance. -/
theorem offCampusFee_amended (fs : FeeSettings) (km : Option ℚ) :
    pricingDeliveryFee fs (some "offcampus") km = .ok (claimedOffCampusFee fs km) ∧
    (getFees fs (some "offcampus") km).2 =
      jsMax fs.OFF_CAMPUS_MIN_FEE (jsRound (km.getD 1 * fs.OFF_CAMPUS_RATE_PER_KM)) ∧
    fs.OFF_CAMPUS_MIN_FEE ≤ (getFees fs (some "offcampus") km).2 ∧
    fs.OFF_CAMPUS_MIN_FEE ≤ claimedOffCampusFee fs km := by
  have hdist : (jsMax 1 (match km with
      | none => (1 : ℚ)
      | some k => if k = 0 then 1 else k)) = jsMax (km.getD 1) 1 := by
    cases km with
    | none => simp [jsMax]
    | some k =>
      by_cases hk : k = 0
      · subst hk
        simp [jsMax]
      · simp only [hk, if_false, Option.getD_some, jsMax_eq_max, max_comm]
  refine ⟨?_, ?_, ?_, ?_⟩
  · simp +decide only [pricingDeliveryFee, claimedOffCampusFee, if_true, if_false]
    rw [hdist]
  · simp +decide only [getFees, if_true, if_false]
  · simp +decide only [getFees, if_true, if_false]
    rw [jsMax_eq_max]
    exact le_max_left _ _
  · simp only [claimedOffCampusFee, jsMax_eq_max]
    exact le_max_left _ _

/-- Counterexample to claim C8 as stated: `getFees` never fails; a method
value outside `{pickup, campus, offcampus}` (here `"bogus"`) is priced by
the final `else` branch as an off-campus delivery instead of being
rejected, so the fee computation used at order creation returns a fee for
invalid methods. -/
theorem feeMethod_claim_counterexample :
    getFees ⟨1000, 1000, 500, 2000⟩ (some "bogus") (some 3) = (1000, 2000) ∧
    getFees ⟨1000, 1000, 500, 2000⟩ (some "bogus") (some 3) =
      getFees ⟨1000, 1000, 500, 2000⟩ (some "offcampus") (some 3) := by
  constructor
  · simp +decide only [getFees, if_true, if_false]
    norm_num [jsMax, jsRound]
  · simp +decide only [getFees, if_true, if_false]

/-- Claim C8 amended: the pricing preview route rejects every nonempty
method outside `{pickup, campus, offcampus}` with a 400 "Invalid method"
error (a missing or empty method defaults to `campus`); `getFees` itself
has no error condition at all and prices any method other than `pickup`
and `campus` exactly like `offcampus`. -/
theorem feeMethod_amended (fs : FeeSettings) (m : String) (km : Option ℚ)
    (hm : m ∉ ["pickup", "campus", "offcampus"]) (hne : m ≠ "") :
    pricingDeliveryFee fs (some m) km = .error (400, "Invalid method") ∧
    getFees fs (some m) km = getFees fs (some "offcampus") km := by
  simp only [List.mem_cons, List.not_mem_nil, or_false, not_or] at hm
  obtain ⟨h1, h2, h3⟩ := hm
  constructor
  · simp only [pricingDeliveryFee, hne, if_false, h1, h2, h3]
  · simp +decide only [getFees, Option.getD_some, h1, h2, if_true, if_false]

/-- Witness for C8's amended theorem at the concrete invalid method
`"bogus"`. -/
theorem feeMethod_amended_witness :
    ("bogus" ∉ ["pickup", "campus", "offcampus"] ∧ "bogus" ≠ "") ∧
    (pricingDeliveryFee ⟨1000, 1000, 500, 2000⟩ (some "bogus") (some 2) =
        .error (400, "Invalid method") ∧
      getFees ⟨1000, 1000, 500, 2000⟩ (some "bogus") (some 2) =
        getFees ⟨1000, 1000, 500, 2000⟩ (some "offcampus") (some 2)) :=
  ⟨⟨by decide, by decide⟩,
   feeMethod_amended ⟨1000, 1000, 500, 2000⟩ "bogus" (some 2) (by decide) (by decide)⟩

/-- JS `s.slice(-6)`: the last six characters of `s` (all of `s` when it is
shorter). -/
def sliceLast6 (s : String) : String := ⟨s.data.drop (s.data.length - 6)⟩

/-- Order code generation in `createOrder`
(src/src/modules/orders/service.ts line 59):
`ORD-${Date.now().toString().slice(-6)}`, a pure function of the creation
timestamp in epoch milliseconds. -/
def orderCode (nowMs : ℕ) : String := "ORD-" ++ sliceLast6 (Nat.repr nowMs)

/-- Claim C9 is false on the code (and the claim is the documented intent:
the migration puts a unique index `Order_code_key` on the code column):
the generated code depends only on the last six decimal digits of the
creation timestamp, so two creations whose timestamps agree there — e.g.
epoch milliseconds 1760000000000 and 1760001000000, about 16 minutes
apart — produce the identical code `ORD-000000`, and the second insert
violates the unique index instead of getting a fresh code. -/
theorem orderCode_collision :
    orderCode 1760000000000 = "ORD-000000" ∧
    orderCode 1760001000000 = "ORD-000000" ∧
    (1760000000000 : ℕ) ≠ 1760001000000 := by
  decide

/-- JavaScript `String.prototype.toUpperCase` (character-wise upper case). -/
def jsToUpper (s : String) : String := ⟨s.data.map Char.toUpper⟩

/-- A `DiscountVoucher` row (prisma model used by
src/src/modules/promo/routes.ts); `expiresAt` is an epoch-millisecond
timestamp when present. -/
structure Voucher where
  id : ℕ
  code : String
  ownerUserId : ℕ
  sharedToUserId : Option ℕ
  discountPercent : ℚ
  status : String
  expiresAt : Option ℤ
  usedByUserId : Option ℕ
  usedOnOrderId : Option ℕ
deriving DecidableEq

/-- The `status: 'used'` update applyVoucherToOrder performs on the found
voucher (src/src/modules/promo/routes.ts lines 691-698). -/
def markUsed (v : Voucher) (uid oid : ℕ) (vs : List Voucher) : List Voucher :=
  vs.map fun w =>
    if w.id = v.id then
      { w with status := "used", usedByUserId := some uid, usedOnOrderId := some oid }
    else w

/-- `applyVoucherToOrder` from src/src/modules/promo/routes.ts
(lines 654-701), as a pure function of the voucher table: returns the
route's result together with the updated table.  The checks run in source
order: lookup by upper-cased code, `status !== 'active'`, ownership,
expiry (lazily flipping an expired voucher), then
`discount = Math.round(orderTotal * discountPercent / 100)` and the
voucher is marked used with the consuming order. -/
def applyVoucherToOrder (code : String) (orderId usedByUserId : ℕ) (orderTotal : ℚ)
    (now : ℤ) (vs : List Voucher) : Except String ℚ × List Voucher :=
  match vs.find? (fun v => v.code == jsToUpper code) with
  | none => (.error "Bon de réduction invalide", vs)
  | some v =>
    if v.status ≠ "active" then
      (.error "Ce bon de réduction n\x27est plus valide", vs)
    else if ¬ (v.ownerUserId = usedByUserId ∨ v.sharedToUserId = some usedByUserId) then
      (.error "Ce bon ne vous appartient pas", vs)
    else
      match v.expiresAt with
      | some e =>
        if e < now then
          (.error "Ce bon de réduction a expiré",
           vs.map fun w => if w.id = v.id then { w with status := "expired" } else w)
        else
          (.ok (jsRound (orderTotal * v.discountPercent / 100)),
           markUsed v usedByUserId orderId vs)
      | none =>
        (.ok (jsRound (orderTotal * v.discountPercent / 100)),
         markUsed v usedByUserId orderId vs)

theorem find?_map_code_preserving (c : String) (vs : List Voucher) (f : Voucher → Voucher)
    (hcode : ∀ w, (f w).code = w.code) (v : Voucher)
    (h : vs.find? (fun w => w.code == c) = some v) :
    (vs.map f).find? (fun w => w.code == c) = some (f v) := by
  induction vs with
  | nil => simp [List.find?] at h
  | cons w ws ih =>
    simp only [List.map_cons]
    by_cases hw : (w.code == c) = true
    · rw [List.find?_cons_of_pos (p := fun w : Voucher => w.code == c) _ hw] at h
      injection h with h
      subst h
      refine List.find?_cons_of_pos _ ?_
      show ((f w).code == c) = true
      rw [hcode]
      exact hw
    · rw [List.find?_cons_of_neg (p := fun w : Voucher => w.code == c) _ hw] at h
      have h2 : ¬ (((f w).code == c) = true) := by
        rw [hcode]
        exact hw
      rw [List.find?_cons_of_neg (p := fun w : Voucher => w.code == c) _ h2]
      exact ih h

theorem find?_markUsed (c : String) (uid oid : ℕ) (v : Voucher) (vs : List Voucher)
    (h : vs.find? (fun w => w.code == c) = some v) :
    (markUsed v uid oid vs).find? (fun w => w.code == c) =
      some { v with
               status := "used"
               usedByUserId := some uid
               usedOnOrderId := some oid } := by
  have hf := find?_map_code_preserving c vs
    (fun w => if w.id = v.id then { w with status := "used", usedByUserId := some uid, usedOnOrderId := some oid } else w)
    (fun w => by
      dsimp only
      by_cases hid : w.id = v.id
      · rw [if_pos hid]
      · rw [if_neg hid])
    v h
  dsimp only at hf
  rw [if_pos rfl] at hf
  exact hf

/-- Claim C7: a successful voucher application computes
`discount = round(preDiscountTotal × discountPercent / 100)` and marks the
voucher `used` recording the consuming order; re-applying the same code
then fails with the "no longer valid" error and changes nothing, so the
first order's stored total and discount are untouched by the second
attempt. -/
theorem voucher_single_use (code : String) (oid1 uid1 : ℕ) (t1 : ℚ) (now1 : ℤ)
    (vs vs' : List Voucher) (d : ℚ)
    (h : applyVoucherToOrder code oid1 uid1 t1 now1 vs = (.ok d, vs')) :
    (∃ v, vs.find? (fun w => w.code == jsToUpper code) = some v ∧
       d = jsRound (t1 * v.discountPercent / 100) ∧
       vs' = markUsed v uid1 oid1 vs) ∧
    ∀ (oid2 uid2 : ℕ) (t2 : ℚ) (now2 : ℤ),
      applyVoucherToOrder code oid2 uid2 t2 now2 vs' =
        (.error "Ce bon de réduction n\x27est plus valide", vs') := by
  cases hfind : vs.find? (fun v => v.code == jsToUpper code) with
  | none =>
    simp only [applyVoucherToOrder, hfind] at h
    exact absurd (congrArg Prod.fst h) (by simp)
  | some v =>
    simp only [applyVoucherToOrder, hfind] at h
    by_cases hst : v.status ≠ "active"
    · rw [if_pos hst] at h
      exact absurd (congrArg Prod.fst h) (by simp)
    · rw [if_neg hst] at h
      by_cases hown : ¬ (v.ownerUserId = uid1 ∨ v.sharedToUserId = some uid1)
      · rw [if_pos hown] at h
        exact absurd (congrArg Prod.fst h) (by simp)
      · rw [if_neg hown] at h
        have hmain : d = jsRound (t1 * v.discountPercent / 100) ∧
            vs' = markUsed v uid1 oid1 vs := by
          cases hexp : v.expiresAt with
          | none =>
            simp only [hexp] at h
            exact ⟨(Except.ok.inj (congrArg Prod.fst h)).symm, (congrArg Prod.snd h).symm⟩
          | some e =>
            simp only [hexp] at h
            by_cases he : e < now1
            · rw [if_pos he] at h
              exact absurd (congrArg Prod.fst h) (by simp)
            · rw [if_neg he] at h
              exact ⟨(Except.ok.inj (congrArg Prod.fst h)).symm, (congrArg Prod.snd h).symm⟩
        obtain ⟨hd, hvs'⟩ := hmain
        refine ⟨⟨v, rfl, hd, hvs'⟩, ?_⟩
        intro oid2 uid2 t2 now2
        have hfind2 : vs'.find? (fun w => w.code == jsToUpper code) =
            some { v with
                     status := "used"
                     usedByUserId := some uid1
                     usedOnOrderId := some oid1 } := by
          rw [hvs']
          exact find?_markUsed (jsToUpper code) uid1 oid1 v vs hfind
        simp only [applyVoucherToOrder, hfind2]
        rw [if_pos (by decide : ("used" : String) ≠ "active")]

/-- Witness for C7: voucher `SAVE10` (10 %), owner 7, applied to order 42
with pre-discount total 10000 gives discount 1000 and flips the voucher to
`used`. -/
theorem voucher_single_use_witness :
    applyVoucherToOrder "SAVE10" 42 7 10000 0
        [⟨1, "SAVE10", 7, none, 10, "active", none, none, none⟩] =
      (.ok 1000, [⟨1, "SAVE10", 7, none, 10, "used", none, some 7, some 42⟩]) ∧
    ((∃ v, [(⟨1, "SAVE10", 7, none, 10, "active", none, none, none⟩ : Voucher)].find?
          (fun w => w.code == jsToUpper "SAVE10") = some v ∧
       (1000 : ℚ) = jsRound (10000 * v.discountPercent / 100) ∧
       [(⟨1, "SAVE10", 7, none, 10, "used", none, some 7, some 42⟩ : Voucher)] =
         markUsed v 7 42 [⟨1, "SAVE10", 7, none, 10, "active", none, none, none⟩]) ∧
     ∀ (oid2 uid2 : ℕ) (t2 : ℚ) (now2 : ℤ),
       applyVoucherToOrder "SAVE10" oid2 uid2 t2 now2
           [⟨1, "SAVE10", 7, none, 10, "used", none, some 7, some 42⟩] =
         (.error "Ce bon de réduction n\x27est plus valide",
          [⟨1, "SAVE10", 7, none, 10, "used", none, some 7, some 42⟩])) := by
  have happ : applyVoucherToOrder "SAVE10" 42 7 10000 0
      [⟨1, "SAVE10", 7, none, 10, "active", none, none, none⟩] =
      (.ok 1000, [⟨1, "SAVE10", 7, none, 10, "used", none, some 7, some 42⟩]) := by
    have hb : ("SAVE10" == jsToUpper "SAVE10") = true := by decide
    simp +decide only [applyVoucherToOrder, List.find?, hb, markUsed, List.map_cons,
      List.map_nil, if_true, if_false]
    norm_num [jsRound]
  exact ⟨happ,
    voucher_single_use "SAVE10" 42 7 10000 0 _ _ 1000 happ⟩

/-- An `Order` row, restricted to the columns the settlement and status
logic read. -/
structure OrderRow where
  id : ℕ
  status : String
  total : ℚ
  deliveryFee : ℚ
deriving DecidableEq

/-- A `DeliveryMission` row, restricted to the columns the mission route
and settlement engine read. -/
structure MissionRow where
  id : ℕ
  orderId : ℕ
  courierUserId : Option ℕ
  status : String
  earning : ℚ
deriving DecidableEq

/-- A `Transaction` row (`commission` has DB default 0). -/
structure TxnRow where
  orderId : ℕ
  beneficiary : String
  amount : ℚ
  commission : ℚ
  netAmount : ℚ
  status : String
deriving DecidableEq

/-- The slice of the database that the settlement engine and the mission
status route touch. -/
structure Db where
  orders : List OrderRow
  missions : List MissionRow
  txns : List TxnRow
deriving DecidableEq

/-- `computeCommission` (src/unnamed/part_017 lines 4-8):
`SERVICE_FEE + Math.round((deliveryFee || 0) * 0.1)`; the `|| 0` only
guards a falsy fee, and `0 * 0.1 = 0` either way. -/
def computeCommission (fs : FeeSettings) (deliveryFee : ℚ) : ℚ :=
  fs.SERVICE_FEE + jsRound (deliveryFee * (1 / 10))

/-- The merchant payout row ensureMerchantAndCourierTransactions creates. -/
def merchantRowFor (fs : FeeSettings) (order : OrderRow) : TxnRow :=
  ⟨order.id, "merchant", order.total, computeCommission fs order.deliveryFee,
   order.total - computeCommission fs order.deliveryFee, "pending"⟩

/-- The courier payout row ensureMerchantAndCourierTransactions creates. -/
def courierRowFor (order : OrderRow) (mission : MissionRow) : TxnRow :=
  ⟨order.id, "courier", mission.earning, 0, mission.earning, "pending"⟩

/-- `ensureMerchantAndCourierTransactions` (src/unnamed/part_017 lines
10-56; the two sides of the committed merge-conflict block are the same
code): look up the order, then check-then-create the merchant payout
(amount = order.total, the computed commission withheld) and — when a
mission exists — check-then-create the courier payout
(amount = mission.earning, commission 0). -/
def ensureMerchantAndCourierTransactions (fs : FeeSettings) (orderId : ℕ) (db : Db) :
    Except String Db :=
  match db.orders.find? (fun o => o.id == orderId) with
  | none => .error "order not found"
  | some order =>
    let db1 :=
      if (db.txns.find? (fun t => t.orderId == order.id && t.beneficiary == "merchant")).isSome
      then db
      else { db with txns := db.txns ++ [merchantRowFor fs order] }
    match db.missions.find? (fun m => m.orderId == order.id) with
    | none => .ok db1
    | some mission =>
      if (db1.txns.find? (fun t => t.orderId == order.id && t.beneficiary == "courier")).isSome
      then .ok db1
      else .ok { db1 with txns := db1.txns ++ [courierRowFor order mission] }

/-- Number of `Transaction` rows for one `(orderId, beneficiary)` pair. -/
def txnCount (l : List TxnRow) (oid : ℕ) (b : String) : ℕ :=
  (l.filter (fun t => t.orderId == oid && t.beneficiary == b)).length

theorem ensure_preserves_rows (fs : FeeSettings) (oid : ℕ) (db db' : Db)
    (h : ensureMerchantAndCourierTransactions fs oid db = .ok db') :
    db'.orders = db.orders ∧ db'.missions = db.missions := by
  cases horder : db.orders.find? (fun o => o.id == oid) with
  | none =>
    simp only [ensureMerchantAndCourierTransactions, horder] at h
    exact Except.noConfusion h
  | some order =>
    simp only [ensureMerchantAndCourierTransactions, horder] at h
    cases hmis : db.missions.find? (fun m => m.orderId == order.id) with
    | none =>
      simp only [hmis] at h
      split at h <;> (injection h with h; subst h; exact ⟨rfl, rfl⟩)
    | some mission =>
      simp only [hmis] at h
      split at h <;>
        first
          | (injection h with h; subst h; exact ⟨rfl, rfl⟩)
          | (split at h <;> (injection h with h; subst h; exact ⟨rfl, rfl⟩))
theorem find?_append_of_some {α : Type} (p : α → Bool) (l1 l2 : List α) (x : α)
    (h : l1.find? p = some x) : (l1 ++ l2).find? p = some x := by
  rw [List.find?_append, h]
  rfl

theorem find?_append_of_none {α : Type} (p : α → Bool) (l1 l2 : List α)
    (h : l1.find? p = none) : (l1 ++ l2).find? p = l2.find? p := by
  rw [List.find?_append, h]
  rfl

theorem find?_txn_append_other (l : List TxnRow) (x : TxnRow) (oid : ℕ) (b : String)
    (hx : x.beneficiary ≠ b) :
    (l ++ [x]).find? (fun t => t.orderId == oid && t.beneficiary == b) =
      l.find? (fun t => t.orderId == oid && t.beneficiary == b) := by
  have hp : (x.orderId == oid && x.beneficiary == b) = false := by
    simp [hx]
  rw [List.find?_append, List.find?_singleton, hp]
  simp

theorem txnCount_append (A B : List TxnRow) (oid : ℕ) (b : String) :
    txnCount (A ++ B) oid b = txnCount A oid b + txnCount B oid b := by
  simp [txnCount, List.filter_append]

theorem txnCount_eq_zero_of_find?_none (l : List TxnRow) (oid : ℕ) (b : String)
    (h : l.find? (fun t => t.orderId == oid && t.beneficiary == b) = none) :
    txnCount l oid b = 0 := by
  rw [List.find?_eq_none] at h
  simp only [txnCount, List.length_eq_zero]
  exact List.filter_eq_nil_iff.mpr h

theorem txnCount_single_other (x : TxnRow) (oid : ℕ) (b : String)
    (hx : x.beneficiary ≠ b) : txnCount [x] oid b = 0 := by
  have hp : (x.orderId == oid && x.beneficiary == b) = false := by
    simp [hx]
  simp [txnCount, List.filter, hp]

/-- Characterization of a successful `ensureMerchantAndCourierTransactions`
run: the order is found and the transaction table is extended by at most
one merchant row (exactly when none existed) and at most one courier row
(exactly when a mission exists and no courier row existed); nothing else
changes. -/
theorem ensure_spec (fs : FeeSettings) (oid : ℕ) (db db' : Db)
    (h : ensureMerchantAndCourierTransactions fs oid db = .ok db') :
    ∃ order, db.orders.find? (fun o => o.id == oid) = some order ∧
      db'.orders = db.orders ∧ db'.missions = db.missions ∧
      db'.txns = db.txns
        ++ (if (db.txns.find?
              (fun t => t.orderId == order.id && t.beneficiary == "merchant")).isSome
            then [] else [merchantRowFor fs order])
        ++ (match db.missions.find? (fun m => m.orderId == order.id) with
            | none => []
            | some mission =>
              if (db.txns.find?
                  (fun t => t.orderId == order.id && t.beneficiary == "courier")).isSome
              then [] else [courierRowFor order mission]) := by
  cases horder : db.orders.find? (fun o => o.id == oid) with
  | none =>
    simp only [ensureMerchantAndCourierTransactions, horder] at h
    exact Except.noConfusion h
  | some order =>
    refine ⟨order, rfl, ?_⟩
    simp only [ensureMerchantAndCourierTransactions, horder] at h
    cases hmis : db.missions.find? (fun m => m.orderId == order.id) with
    | none =>
      simp only [hmis] at h
      by_cases hmer : (db.txns.find?
          (fun t => t.orderId == order.id && t.beneficiary == "merchant")).isSome
      · rw [if_pos hmer] at h
        injection h with h
        subst h
        simp [hmer]
      · rw [if_neg hmer] at h
        injection h with h
        subst h
        simp [hmer, merchantRowFor]
    | some mission =>
      simp only [hmis] at h
      by_cases hmer : (db.txns.find?
          (fun t => t.orderId == order.id && t.beneficiary == "merchant")).isSome
      · rw [if_pos hmer] at h
        by_cases hcou : (db.txns.find?
            (fun t => t.orderId == order.id && t.beneficiary == "courier")).isSome
        · rw [if_pos hcou] at h
          injection h with h
          subst h
          simp [hmer, hcou]
        · rw [if_neg hcou] at h
          injection h with h
          subst h
          simp [hmer, hcou, courierRowFor]
      · rw [if_neg hmer] at h
        rw [find?_txn_append_other db.txns (merchantRowFor fs order) order.id "courier"
          (by simp [merchantRowFor])] at h
        by_cases hcou : (db.txns.find?
            (fun t => t.orderId == order.id && t.beneficiary == "courier")).isSome
        · rw [if_pos hcou] at h
          injection h with h
          subst h
          simp [hmer, hcou, merchantRowFor]
        · rw [if_neg hcou] at h
          injection h with h
          subst h
          simp [hmer, hcou, merchantRowFor, courierRowFor]

theorem txnCount_single_merchant (fs : FeeSettings) (order : OrderRow) :
    txnCount [merchantRowFor fs order] order.id "merchant" = 1 := by
  simp [txnCount, List.filter, merchantRowFor]

theorem txnCount_single_courier (order : OrderRow) (mission : MissionRow) :
    txnCount [courierRowFor order mission] order.id "courier" = 1 := by
  simp [txnCount, List.filter, courierRowFor]

theorem mem_append_single {α : Type} (t x : α) (l : List α) (ht : t ∈ l ++ [x])
    (hnt : t ∉ l) : t = x := by
  rcases List.mem_append.mp ht with h | h
  · exact absurd h hnt
  · simpa using h

/-- A second `ensureMerchantAndCourierTransactions` call is the identity as
soon as the order is found, a merchant row exists, and a courier row
exists whenever a mission does. -/
theorem ensure_second (fs : FeeSettings) (order : OrderRow) (db' : Db)
    (horder2 : db'.orders.find? (fun o => o.id == order.id) = some order)
    (hmer2 : (db'.txns.find?
      (fun t => t.orderId == order.id && t.beneficiary == "merchant")).isSome)
    (hcou2 : ∀ mission, db'.missions.find? (fun m => m.orderId == order.id) = some mission →
      (db'.txns.find?
        (fun t => t.orderId == order.id && t.beneficiary == "courier")).isSome) :
    ensureMerchantAndCourierTransactions fs order.id db' = .ok db' := by
  simp only [ensureMerchantAndCourierTransactions, horder2]
  rw [if_pos hmer2]
  cases hm : db'.missions.find? (fun m => m.orderId == order.id) with
  | none => rfl
  | some mission =>
    simp only
    rw [if_pos (hcou2 mission hm)]

/-- Claim C2: `ensureMerchantAndCourierTransactions` is idempotent — it
preserves "at most one Transaction per (orderId, beneficiary)", a second
call on its result is the identity, and any courier row it creates has
amount = mission.earning, commission = 0, netAmount = mission.earning,
status = "pending". -/
theorem ensureSettlement_idempotent (fs : FeeSettings) (oid : ℕ) (db db' : Db)
    (h : ensureMerchantAndCourierTransactions fs oid db = .ok db') :
    (txnCount db.txns oid "merchant" ≤ 1 → txnCount db'.txns oid "merchant" ≤ 1) ∧
    (txnCount db.txns oid "courier" ≤ 1 → txnCount db'.txns oid "courier" ≤ 1) ∧
    ensureMerchantAndCourierTransactions fs oid db' = .ok db' ∧
    (∀ t ∈ db'.txns, t ∉ db.txns → t.beneficiary = "courier" →
      ∃ m, db.missions.find? (fun x => x.orderId == oid) = some m ∧
        t = ⟨oid, "courier", m.earning, 0, m.earning, "pending"⟩) := by
  obtain ⟨order, horder, hords, hmiss, htxns⟩ := ensure_spec fs oid db db' h
  have hoid : order.id = oid := by simpa using List.find?_some horder
  subst hoid
  have horder2 : db'.orders.find? (fun o => o.id == order.id) = some order := by
    rw [hords]
    exact horder
  cases hmis2 : db.missions.find? (fun m => m.orderId == order.id) with
  | none =>
    simp only [hmis2, List.append_nil] at htxns
    have hcou2 : ∀ mission,
        db'.missions.find? (fun m => m.orderId == order.id) = some mission →
        (db'.txns.find?
          (fun t => t.orderId == order.id && t.beneficiary == "courier")).isSome := by
      intro mission hm
      rw [hmiss, hmis2] at hm
      exact Option.noConfusion hm
    by_cases hmer : (db.txns.find?
        (fun t => t.orderId == order.id && t.beneficiary == "merchant")).isSome
    · rw [if_pos hmer, List.append_nil] at htxns
      refine ⟨?_, ?_, ?_, ?_⟩
      · intro h1
        rw [htxns]
        exact h1
      · intro h1
        rw [htxns]
        exact h1
      · refine ensure_second fs order db' horder2 ?_ hcou2
        rw [htxns]
        exact hmer
      · intro t ht hnt hb
        rw [htxns] at ht
        exact absurd ht hnt
    · rw [if_neg hmer] at htxns
      have hzero : txnCount db.txns order.id "merchant" = 0 :=
        txnCount_eq_zero_of_find?_none _ _ _ (Option.not_isSome_iff_eq_none.mp hmer)
      refine ⟨?_, ?_, ?_, ?_⟩
      · intro h1
        rw [htxns, txnCount_append, hzero, txnCount_single_merchant]
      · intro h1
        rw [htxns, txnCount_append,
          txnCount_single_other (merchantRowFor fs order) order.id "courier"
            (by simp [merchantRowFor])]
        omega
      · refine ensure_second fs order db' horder2 ?_ hcou2
        rw [htxns]
        rw [find?_append_of_none _ _ _ (Option.not_isSome_iff_eq_none.mp hmer)]
        rw [List.find?_singleton, if_pos (by simp [merchantRowFor])]
        rfl
      · intro t ht hnt hb
        rw [htxns] at ht
        have ht2 := mem_append_single t _ _ ht hnt
        subst ht2
        exact absurd hb (by simp [merchantRowFor])
  | some mission =>
    simp only [hmis2] at htxns
    have hcou0 : ∀ (l : List TxnRow) (x : TxnRow), x.beneficiary = "courier" →
        ((l ++ [x]).find?
          (fun t => t.orderId == order.id && t.beneficiary == "courier")).isSome →
        True := fun _ _ _ _ => trivial
    by_cases hcou : (db.txns.find?
        (fun t => t.orderId == order.id && t.beneficiary == "courier")).isSome
    · rw [if_pos hcou, List.append_nil] at htxns
      have hcou2 : ∀ m2,
          db'.missions.find? (fun m => m.orderId == order.id) = some m2 →
          (db'.txns.find?
            (fun t => t.orderId == order.id && t.beneficiary == "courier")).isSome := by
        intro m2 hm
        obtain ⟨x, hx⟩ := Option.isSome_iff_exists.mp hcou
        by_cases hmer : (db.txns.find?
            (fun t => t.orderId == order.id && t.beneficiary == "merchant")).isSome
        · rw [if_pos hmer, List.append_nil] at htxns
          rw [htxns, hx]
          rfl
        · rw [if_neg hmer] at htxns
          rw [htxns, find?_append_of_some _ _ _ _ hx]
          rfl
      by_cases hmer : (db.txns.find?
          (fun t => t.orderId == order.id && t.beneficiary == "merchant")).isSome
      · rw [if_pos hmer, List.append_nil] at htxns
        refine ⟨?_, ?_, ?_, ?_⟩
        · intro h1
          rw [htxns]
          exact h1
        · intro h1
          rw [htxns]
          exact h1
        · refine ensure_second fs order db' horder2 ?_ hcou2
          rw [htxns]
          exact hmer
        · intro t ht hnt hb
          rw [htxns] at ht
          exact absurd ht hnt
      · rw [if_neg hmer] at htxns
        have hzero : txnCount db.txns order.id "merchant" = 0 :=
          txnCount_eq_zero_of_find?_none _ _ _ (Option.not_isSome_iff_eq_none.mp hmer)
        refine ⟨?_, ?_, ?_, ?_⟩
        · intro h1
          rw [htxns, txnCount_append, hzero, txnCount_single_merchant]
        · intro h1
          rw [htxns, txnCount_append,
            txnCount_single_other (merchantRowFor fs order) order.id "courier"
              (by simp [merchantRowFor])]
          omega
        · refine ensure_second fs order db' horder2 ?_ hcou2
          rw [htxns]
          rw [find?_append_of_none _ _ _ (Option.not_isSome_iff_eq_none.mp hmer)]
          rw [List.find?_singleton, if_pos (by simp [merchantRowFor])]
          rfl
        · intro t ht hnt hb
          rw [htxns] at ht
          have ht2 := mem_append_single t _ _ ht hnt
          subst ht2
          exact absurd hb (by simp [merchantRowFor])
    · rw [if_neg hcou] at htxns
      have hczero : txnCount db.txns order.id "courier" = 0 :=
        txnCount_eq_zero_of_find?_none _ _ _ (Option.not_isSome_iff_eq_none.mp hcou)
      have hcou2 : ∀ m2,
          db'.missions.find? (fun m => m.orderId == order.id) = some m2 →
          (db'.txns.find?
            (fun t => t.orderId == order.id && t.beneficiary == "courier")).isSome := by
        intro m2 hm
        by_cases hmer : (db.txns.find?
            (fun t => t.orderId == order.id && t.beneficiary == "merchant")).isSome
        · rw [if_pos hmer, List.append_nil] at htxns
          rw [htxns,
            find?_append_of_none _ _ _ (Option.not_isSome_iff_eq_none.mp hcou),
            List.find?_singleton, if_pos (by simp [courierRowFor])]
          rfl
        · rw [if_neg hmer] at htxns
          have hbase : ((db.txns ++ [merchantRowFor fs order]).find?
              (fun t => t.orderId == order.id && t.beneficiary == "courier")) = none := by
            rw [find?_txn_append_other _ _ _ _ (by simp [merchantRowFor])]
            exact Option.not_isSome_iff_eq_none.mp hcou
          rw [htxns, find?_append_of_none _ _ _ hbase,
            List.find?_singleton, if_pos (by simp [courierRowFor])]
          rfl
      by_cases hmer : (db.txns.find?
          (fun t => t.orderId == order.id && t.beneficiary == "merchant")).isSome
      · rw [if_pos hmer, List.append_nil] at htxns
        refine ⟨?_, ?_, ?_, ?_⟩
        · intro h1
          rw [htxns, txnCount_append,
            txnCount_single_other (courierRowFor order mission) order.id "merchant"
              (by simp [courierRowFor])]
          omega
        · intro h1
          rw [htxns, txnCount_append, hczero, txnCount_single_courier]
        · refine ensure_second fs order db' horder2 ?_ hcou2
          obtain ⟨x, hx⟩ := Option.isSome_iff_exists.mp hmer
          rw [htxns, find?_append_of_some _ _ _ _ hx]
          rfl
        · intro t ht hnt hb
          rw [htxns] at ht
          have ht2 := mem_append_single t _ _ ht hnt
          subst ht2
          exact ⟨mission, rfl, rfl⟩
      · rw [if_neg hmer] at htxns
        have hzero : txnCount db.txns order.id "merchant" = 0 :=
          txnCount_eq_zero_of_find?_none _ _ _ (Option.not_isSome_iff_eq_none.mp hmer)
        refine ⟨?_, ?_, ?_, ?_⟩
        · intro h1
          rw [htxns, txnCount_append, txnCount_append, hzero, txnCount_single_merchant,
            txnCount_single_other (courierRowFor order mission) order.id "merchant"
              (by simp [courierRowFor])]
        · intro h1
          rw [htxns, txnCount_append, txnCount_append, hczero, txnCount_single_courier,
            txnCount_single_other (merchantRowFor fs order) order.id "courier"
              (by simp [merchantRowFor])]
        · refine ensure_second fs order db' horder2 ?_ hcou2
          rw [htxns]
          have hone : ((db.txns ++ [merchantRowFor fs order]).find?
              (fun t => t.orderId == order.id && t.beneficiary == "merchant")) =
              some (merchantRowFor fs order) := by
            rw [find?_append_of_none _ _ _ (Option.not_isSome_iff_eq_none.mp hmer),
              List.find?_singleton, if_pos (by simp [merchantRowFor])]
          rw [find?_append_of_some _ _ _ _ hone]
          rfl
        · intro t ht hnt hb
          rw [htxns] at ht
          rcases List.mem_append.mp ht with ht1 | ht1
          · have ht2 := mem_append_single t _ _ ht1 hnt
            subst ht2
            exact absurd hb (by simp [merchantRowFor])
          · have ht2 : t = courierRowFor order mission := by simpa using ht1
            subst ht2
            exact ⟨mission, rfl, rfl⟩

/-- Concrete settings for the settlement witness (the defaults of
`getSetting`). -/
def fsW2 : FeeSettings := ⟨1000, 1000, 500, 2000⟩

/-- One delivered order (total 8000, delivery fee 1000) with an enroute
mission (earning 1500) and no transactions yet. -/
def dbW2 : Db :=
  ⟨[⟨1, "delivered", 8000, 1000⟩], [⟨5, 1, some 9, "enroute", 1500⟩], []⟩

/-- The state after one settlement run: commission
1000 + round(1000 × 0.1) = 1100. -/
def dbW2' : Db :=
  ⟨[⟨1, "delivered", 8000, 1000⟩], [⟨5, 1, some 9, "enroute", 1500⟩],
   [⟨1, "merchant", 8000, 1100, 6900, "pending"⟩,
    ⟨1, "courier", 1500, 0, 1500, "pending"⟩]⟩

/-- Witness for C2 on the concrete one-order state. -/
theorem ensureSettlement_idempotent_witness :
    ensureMerchantAndCourierTransactions fsW2 1 dbW2 = .ok dbW2' ∧
    ((txnCount dbW2.txns 1 "merchant" ≤ 1 → txnCount dbW2'.txns 1 "merchant" ≤ 1) ∧
     (txnCount dbW2.txns 1 "courier" ≤ 1 → txnCount dbW2'.txns 1 "courier" ≤ 1) ∧
     ensureMerchantAndCourierTransactions fsW2 1 dbW2' = .ok dbW2' ∧
     (∀ t ∈ dbW2'.txns, t ∉ dbW2.txns → t.beneficiary = "courier" →
       ∃ m, dbW2.missions.find? (fun x => x.orderId == 1) = some m ∧
         t = ⟨1, "courier", m.earning, 0, m.earning, "pending"⟩)) := by
  have hW : ensureMerchantAndCourierTransactions fsW2 1 dbW2 = .ok dbW2' := by
    have hb1 : ("merchant" == "courier") = false := by decide
    have hb2 : ("courier" == "merchant") = false := by decide
    simp +decide only [ensureMerchantAndCourierTransactions, merchantRowFor,
      courierRowFor, computeCommission, List.find?, fsW2, dbW2, dbW2',
      hb1, hb2, if_true, if_false]
    norm_num [jsRound]
  exact ⟨hW, ensureSettlement_idempotent fsW2 1 dbW2 dbW2' hW⟩

/-- The `allowed` record of PATCH orders/{id}/status
(src/src/modules/orders/routes.ts lines 211-219), as the partial map a JS
object lookup is: a key outside the record yields `undefined` (here
`none`, on which `.includes` would throw — all seven stored statuses are
keys, so that path is unreachable). -/
def orderAllowed? (s : String) : Option (List String) :=
  if s = "pending_confirmation" then some ["received", "rejected"]
  else if s = "received" then some ["preparing", "rejected"]
  else if s = "preparing" then some ["ready", "rejected"]
  else if s = "ready" then some ["delivering"]
  else if s = "delivering" then some ["delivered"]
  else if s = "delivered" then some []
  else if s = "rejected" then some []
  else none

/-- The transition decision of PATCH orders/{id}/status
(src/src/modules/orders/routes.ts lines 203-226) on a found order: a falsy
(empty) requested status is "Invalid payload" (400); a requested status
outside `allowed[order.status]` is "Invalid status transition" (400); an
undefined `allowed` entry would be a TypeError (500).  On success the
stored status becomes the requested string. -/
def patchOrderStatus (stored req : String) : Except (Nat × String) String :=
  if req = "" then .error (400, "Invalid payload")
  else
    match orderAllowed? stored with
    | none => .error (500, "TypeError")
    | some l => if req ∈ l then .ok req else .error (400, "Invalid status transition")

/-- The stored status after the PATCH: updated only when the handler
succeeds (`prisma.order.update` runs only on the success path). -/
def applyOrderPatch (stored req : String) : String :=
  match patchOrderStatus stored req with
  | .ok s2 => s2
  | .error _ => stored

/-- The seven stored order statuses. -/
def orderStatuses : List String :=
  ["pending_confirmation", "received", "preparing", "ready", "delivering",
   "delivered", "rejected"]

/-- The order-status transition table exactly as the claim lists it
(spec-side definition, to be compared with the code's `orderAllowed?`). -/
def claimedOrderTransitions : List (String × String) :=
  [("pending_confirmation", "received"), ("pending_confirmation", "rejected"),
   ("received", "preparing"), ("received", "rejected"),
   ("preparing", "ready"), ("preparing", "rejected"),
   ("ready", "delivering"),
   ("delivering", "delivered")]

theorem orderClosure_of_allowed (s : String) (l : List String)
    (hl : orderAllowed? s = some l)
    (hsub : ∀ u ∈ l, (s, u) ∈ claimedOrderTransitions)
    (t : String) (ht : (s, t) ∉ claimedOrderTransitions) :
    (∃ msg, patchOrderStatus s t = .error (400, msg)) ∧
    applyOrderPatch s t = s ∧
    (t ≠ "" → patchOrderStatus s t = .error (400, "Invalid status transition")) := by
  by_cases h0 : t = ""
  · subst h0
    refine ⟨⟨"Invalid payload", ?_⟩, ?_, fun hne => absurd rfl hne⟩
    · simp [patchOrderStatus]
    · simp [applyOrderPatch, patchOrderStatus]
  · have hmem : t ∉ l := fun hm => ht (hsub t hm)
    have hp : patchOrderStatus s t = .error (400, "Invalid status transition") := by
      simp only [patchOrderStatus, h0, if_false, hl]
      rw [if_neg hmem]
    exact ⟨⟨"Invalid status transition", hp⟩, by simp [applyOrderPatch, hp], fun _ => hp⟩

/-- Claim C3: for every stored order status and every requested next
status outside the claimed transition table, PATCH orders/{id}/status
fails with a 400-class error and the stored status is unchanged; when the
request is nonempty the error is exactly the route's
"Invalid status transition". -/
theorem orderStatus_closure (s t : String) (hs : s ∈ orderStatuses)
    (ht : (s, t) ∉ claimedOrderTransitions) :
    (∃ msg, patchOrderStatus s t = .error (400, msg)) ∧
    applyOrderPatch s t = s ∧
    (t ≠ "" → patchOrderStatus s t = .error (400, "Invalid status transition")) := by
  fin_cases hs
  · exact orderClosure_of_allowed "pending_confirmation" ["received", "rejected"]
      (by decide) (by decide) t ht
  · exact orderClosure_of_allowed "received" ["preparing", "rejected"]
      (by decide) (by decide) t ht
  · exact orderClosure_of_allowed "preparing" ["ready", "rejected"]
      (by decide) (by decide) t ht
  · exact orderClosure_of_allowed "ready" ["delivering"] (by decide) (by decide) t ht
  · exact orderClosure_of_allowed "delivering" ["delivered"] (by decide) (by decide) t ht
  · exact orderClosure_of_allowed "delivered" [] (by decide) (by decide) t ht
  · exact orderClosure_of_allowed "rejected" [] (by decide) (by decide) t ht

/-- Witness for C3 at the claim's own scenario: `ready → preparing` is not
in the table and is rejected with the stored status unchanged. -/
theorem orderStatus_closure_witness :
    ("ready" ∈ orderStatuses ∧ ("ready", "preparing") ∉ claimedOrderTransitions) ∧
    ((∃ msg, patchOrderStatus "ready" "preparing" = .error (400, msg)) ∧
     applyOrderPatch "ready" "preparing" = "ready" ∧
     ("preparing" ≠ "" →
       patchOrderStatus "ready" "preparing" = .error (400, "Invalid status transition"))) :=
  ⟨⟨by decide, by decide⟩, orderStatus_closure "ready" "preparing" (by decide) (by decide)⟩

/-- The `allowed` record of PATCH missions/{id}/status
(src/src/modules/missions/routes.ts lines 172-178). -/
def missionAllowed? (s : String) : Option (List String) :=
  if s = "available" then some ["accepted"]
  else if s = "accepted" then some ["picked"]
  else if s = "picked" then some ["enroute"]
  else if s = "enroute" then some ["delivered"]
  else if s = "delivered" then some []
  else none

/-- The `$transaction` body of PATCH missions/{id}/status for a delivered
mission (src/src/modules/missions/routes.ts lines 181-187): the mission's
status and the parent order's status are written in one atomic storage
transaction. -/
def deliveredMirror (db : Db) (missionId oid : ℕ) : Db :=
  { db with
      missions := db.missions.map fun x =>
        if x.id = missionId then { x with status := "delivered" } else x
      orders := db.orders.map fun o =>
        if o.id = oid then { o with status := "delivered" } else o }

/-- PATCH missions/{id}/status (src/src/modules/missions/routes.ts lines
163-194) as a state transformer: returns the HTTP outcome together with
the committed database state.  Guards in source order: falsy status,
mission lookup, courier ownership, transition table.  On `delivered` the
mission update and the order mirror run inside one `$transaction`; the
settlement engine is invoked afterwards, outside the transaction — if it
throws, the response is a 500 but the mirrored state stays committed. -/
def missionPatchStatus (fs : FeeSettings) (userId missionId : ℕ) (req : String) (db : Db) :
    Except (Nat × String) Unit × Db :=
  if req = "" then (.error (400, "Invalid payload"), db)
  else
    match db.missions.find? (fun m => m.id == missionId) with
    | none => (.error (404, "Mission not found"), db)
    | some m =>
      if m.courierUserId ≠ some userId then (.error (403, "Forbidden"), db)
      else
        match missionAllowed? m.status with
        | none => (.error (500, "TypeError"), db)
        | some l =>
          if req ∉ l then (.error (400, "Invalid status transition"), db)
          else
            let db1 : Db := { db with missions := db.missions.map fun x =>
              if x.id = missionId then { x with status := req } else x }
            let db2 : Db :=
              if req = "delivered"
              then { db1 with orders := db1.orders.map fun o =>
                if o.id = m.orderId then { o with status := "delivered" } else o }
              else db1
            if req = "delivered" then
              match ensureMerchantAndCourierTransactions fs m.orderId db2 with
              | .ok db3 => (.ok (), db3)
              | .error e => (.error (500, e), db2)
            else (.ok (), db2)

/-- Claim C4: a legal courier-side update to `delivered` (mission
`enroute`, acting courier is the assigned one) leaves a committed state in
which the mission and the parent order are both `delivered` — they are
written by the one atomic `deliveredMirror` transaction, so neither update
is applied without the other — and the handler's outcome is exactly the
settlement engine applied to that mirrored state. -/
theorem missionDelivered_mirrors_order (fs : FeeSettings) (uid mid : ℕ) (db : Db)
    (m : MissionRow)
    (hfind : db.missions.find? (fun x => x.id == mid) = some m)
    (hown : m.courierUserId = some uid)
    (hst : m.status = "enroute") :
    (∀ x ∈ (missionPatchStatus fs uid mid "delivered" db).2.missions,
        x.id = mid → x.status = "delivered") ∧
    (∀ o ∈ (missionPatchStatus fs uid mid "delivered" db).2.orders,
        o.id = m.orderId → o.status = "delivered") ∧
    missionPatchStatus fs uid mid "delivered" db =
      (match ensureMerchantAndCourierTransactions fs m.orderId
          (deliveredMirror db mid m.orderId) with
       | .ok db3 => (.ok (), db3)
       | .error e => (.error (500, e), deliveredMirror db mid m.orderId)) := by
  have heval : missionPatchStatus fs uid mid "delivered" db =
      (match ensureMerchantAndCourierTransactions fs m.orderId
          (deliveredMirror db mid m.orderId) with
       | .ok db3 => (.ok (), db3)
       | .error e => (.error (500, e), deliveredMirror db mid m.orderId)) := by
    simp only [missionPatchStatus, hfind, hown, hst]
    simp +decide [missionAllowed?, deliveredMirror]
  have hmirror :
      (∀ x ∈ (deliveredMirror db mid m.orderId).missions,
          x.id = mid → x.status = "delivered") ∧
      (∀ o ∈ (deliveredMirror db mid m.orderId).orders,
          o.id = m.orderId → o.status = "delivered") := by
    constructor
    · intro x hx hxid
      simp only [deliveredMirror, List.mem_map] at hx
      obtain ⟨y, _, hy⟩ := hx
      by_cases hid : y.id = mid
      · rw [← hy, if_pos hid]
      · rw [← hy, if_neg hid] at hxid ⊢
        exact absurd hxid hid
    · intro o ho hoid
      simp only [deliveredMirror, List.mem_map] at ho
      obtain ⟨y, _, hy⟩ := ho
      by_cases hid : y.id = m.orderId
      · rw [← hy, if_pos hid]
      · rw [← hy, if_neg hid] at hoid ⊢
        exact absurd hoid hid
  refine ⟨?_, ?_, heval⟩
  · intro x hx
    rw [heval] at hx
    revert hx
    cases hens : ensureMerchantAndCourierTransactions fs m.orderId
        (deliveredMirror db mid m.orderId) with
    | ok db3 =>
      intro hx
      have hrows := ensure_preserves_rows fs m.orderId _ _ hens
      simp only [hens] at hx
      rw [hrows.2] at hx
      exact hmirror.1 x hx
    | error e =>
      intro hx
      simp only [hens] at hx
      exact hmirror.1 x hx
  · intro o ho
    rw [heval] at ho
    revert ho
    cases hens : ensureMerchantAndCourierTransactions fs m.orderId
        (deliveredMirror db mid m.orderId) with
    | ok db3 =>
      intro ho
      have hrows := ensure_preserves_rows fs m.orderId _ _ hens
      simp only [hens] at ho
      rw [hrows.1] at ho
      exact hmirror.2 o ho
    | error e =>
      intro ho
      simp only [hens] at ho
      exact hmirror.2 o ho

/-- Witness for C4 on the concrete state `dbW2`: courier 9 delivers
mission 5 of order 1. -/
theorem missionDelivered_mirrors_order_witness :
    (dbW2.missions.find? (fun x => x.id == 5) =
        some (⟨5, 1, some 9, "enroute", 1500⟩ : MissionRow) ∧
     (⟨5, 1, some 9, "enroute", 1500⟩ : MissionRow).courierUserId = some 9 ∧
     (⟨5, 1, some 9, "enroute", 1500⟩ : MissionRow).status = "enroute") ∧
    ((∀ x ∈ (missionPatchStatus fsW2 9 5 "delivered" dbW2).2.missions,
        x.id = 5 → x.status = "delivered") ∧
     (∀ o ∈ (missionPatchStatus fsW2 9 5 "delivered" dbW2).2.orders,
        o.id = 1 → o.status = "delivered") ∧
     missionPatchStatus fsW2 9 5 "delivered" dbW2 =
       (match ensureMerchantAndCourierTransactions fsW2 1 (deliveredMirror dbW2 5 1) with
        | .ok db3 => (.ok (), db3)
        | .error e => (.error (500, e), deliveredMirror dbW2 5 1))) :=
  ⟨⟨rfl, rfl, rfl⟩,
   missionDelivered_mirrors_order fsW2 9 5 dbW2 ⟨5, 1, some 9, "enroute", 1500⟩
     rfl rfl rfl⟩

/-- A `Dish` row (the columns createOrder reads). -/
structure Dish where
  id : ℕ
  restaurantId : ℕ
  name : String
  price : ℚ
deriving DecidableEq

/-- One submitted cart line (zod `CreateOrderSchema`: qty is a positive
integer, customPrice a positive number when present). -/
structure OrderItemInput where
  dishId : ℕ
  qty : ℕ
  customPrice : Option ℚ
deriving DecidableEq

/-- A persisted `OrderItem` snapshot as createOrder builds it:
base catalog price plus the override stored only when it differs. -/
structure OrderItemRec where
  dishId : ℕ
  name : String
  price : ℚ
  customPrice : Option ℚ
  qty : ℕ
deriving DecidableEq

/-- The `CreateOrderInput` fields the money/validation logic reads. -/
structure CreateOrderInput where
  customerUserId : Option ℕ
  customerName : String
  restaurantId : ℕ
  items : List OrderItemInput
  deliveryMethod : String
  paymentMethod : String
  estimatedDistanceKm : Option ℚ
  voucherCode : Option String
deriving DecidableEq

/-- The read-only environment createOrder queries: existing user ids,
restaurant ids, the dish catalog, and the fee settings. -/
structure Env where
  users : List ℕ
  restaurants : List ℕ
  dishes : List Dish
  fees : FeeSettings
deriving DecidableEq

/-- The persisted Order (with its items and the transaction created in the
same `prisma.$transaction`). -/
structure OrderRec where
  id : ℕ
  code : String
  customerUserId : ℕ
  restaurantId : ℕ
  subtotal : ℚ
  serviceFee : ℚ
  deliveryFee : ℚ
  discount : ℚ
  total : ℚ
  deliveryMethod : String
  paymentMethod : String
  status : String
  items : List OrderItemRec
  transactions : List TxnRow
deriving DecidableEq

/-- The item loop of createOrder (src/src/modules/orders/service.ts lines
29-45): look up each dish, reject a missing dish or one from another
restaurant, price the line with `effectivePrice`, and accumulate the
subtotal together with the OrderItem snapshots (the snapshot stores the
override only when it differs from the catalog price). -/
def processItems (env : Env) (rid : ℕ) :
    List OrderItemInput → Except (Nat × String) (ℚ × List OrderItemRec)
  | [] => .ok (0, [])
  | item :: rest =>
    match env.dishes.find? (fun d => d.id == item.dishId) with
    | none => .error (400, "Dish not found")
    | some dish =>
      if dish.restaurantId ≠ rid then
        .error (400, "Dish does not belong to this restaurant")
      else
        match processItems env rid rest with
        | .error e => .error e
        | .ok (s, recs) =>
          let finalPrice := effectivePrice dish.price item.customPrice
          .ok (finalPrice * item.qty + s,
            ⟨dish.id, dish.name, dish.price,
             if finalPrice ≠ dish.price then some finalPrice else none,
             item.qty⟩ :: recs)

/-- `createOrder` (src/src/modules/orders/service.ts lines 11-126) as a
pure function of the environment, the creation timestamp, the id the
store assigns, the input, and the voucher table.  Modelled: the
existence checks, the item loop, the fee computation, the atomic
Order+items+merchant-Transaction write (`commission` takes its DB default
0), and the post-commit voucher application with its
`success && discount` guard updating `discount`/`total`.  Promo-code
application is omitted: it only awards points to the code's owner and
never touches the order's money fields.  Notification failures are
swallowed by the source and do not affect the order. -/
def createOrder (env : Env) (nowMs : ℕ) (newOrderId : ℕ) (input : CreateOrderInput)
    (vs : List Voucher) : Except (Nat × String) (OrderRec × List Voucher) :=
  match input.customerUserId with
  | none => .error (400, "User ID is required for order")
  | some uid =>
    if uid ∉ env.users then .error (404, "Customer not found")
    else if input.restaurantId ∉ env.restaurants then .error (404, "Restaurant not found")
    else
      match processItems env input.restaurantId input.items with
      | .error e => .error e
      | .ok (subtotal, recs) =>
        let fees := getFees env.fees (some input.deliveryMethod) input.estimatedDistanceKm
        let serviceFee := fees.1
        let deliveryFee := fees.2
        let totalBeforeDiscount := subtotal + serviceFee + deliveryFee
        let baseOrder : OrderRec :=
          { id := newOrderId
            code := orderCode nowMs
            customerUserId := uid
            restaurantId := input.restaurantId
            subtotal := subtotal
            serviceFee := serviceFee
            deliveryFee := deliveryFee
            discount := 0
            total := totalBeforeDiscount
            deliveryMethod := input.deliveryMethod
            paymentMethod := input.paymentMethod
            status := "pending_confirmation"
            items := recs
            transactions := [⟨newOrderId, "merchant", subtotal, 0, subtotal, "pending"⟩] }
        match input.voucherCode with
        | none => .ok (baseOrder, vs)
        | some vc =>
          let r := applyVoucherToOrder vc newOrderId uid totalBeforeDiscount (nowMs : ℤ) vs
          match r.1 with
          | .error _ => .ok (baseOrder, r.2)
          | .ok d =>
            if d = 0 then .ok (baseOrder, r.2)
            else .ok ({ baseOrder with discount := d, total := totalBeforeDiscount - d }, r.2)

/-- The per-line relation between a submitted item and its stored
snapshot: same quantity, and the stored effective unit price is
`effectivePrice` of the dish the environment holds for it. -/
def lineSpec (env : Env) (it : OrderItemInput) (r : OrderItemRec) : Prop :=
  r.qty = it.qty ∧ ∃ d, env.dishes.find? (fun x => x.id == it.dishId) = some d ∧
    r.customPrice.getD r.price = effectivePrice d.price it.customPrice

theorem processItems_spec (env : Env) (rid : ℕ) (l : List OrderItemInput)
    (s : ℚ) (recs : List OrderItemRec)
    (h : processItems env rid l = .ok (s, recs)) :
    s = (recs.map fun r => r.customPrice.getD r.price * (r.qty : ℚ)).sum ∧
    List.Forall₂ (lineSpec env) l recs := by
  induction l generalizing s recs with
  | nil =>
    simp only [processItems] at h
    injection h with h
    injection h with h1 h2
    subst h1
    subst h2
    exact ⟨by simp, List.Forall₂.nil⟩
  | cons item rest ih =>
    simp only [processItems] at h
    cases hdish : env.dishes.find? (fun d => d.id == item.dishId) with
    | none =>
      rw [hdish] at h
      exact Except.noConfusion h
    | some dish =>
      rw [hdish] at h
      simp only at h
      by_cases hr : dish.restaurantId ≠ rid
      · rw [if_pos hr] at h
        exact Except.noConfusion h
      · rw [if_neg hr] at h
        cases hrest : processItems env rid rest with
        | error e =>
          rw [hrest] at h
          exact Except.noConfusion h
        | ok p =>
          obtain ⟨s0, recs0⟩ := p
          rw [hrest] at h
          simp only at h
          injection h with h
          injection h with h1 h2
          subst h1
          subst h2
          obtain ⟨ihs, ihf⟩ := ih s0 recs0 hrest
          have hcp : (if effectivePrice dish.price item.customPrice ≠ dish.price
              then some (effectivePrice dish.price item.customPrice) else none).getD
                dish.price = effectivePrice dish.price item.customPrice := by
            by_cases hfp : effectivePrice dish.price item.customPrice = dish.price
            · rw [if_neg (not_not_intro hfp), Option.getD_none]
              exact hfp.symm
            · rw [if_pos hfp, Option.getD_some]
          constructor
          · simp only [List.map_cons, List.sum_cons]
            rw [hcp, ← ihs]
          · exact List.Forall₂.cons ⟨rfl, dish, hdish, hcp⟩ ihf

/-- Characterization of a successful `createOrder` run: the item loop
succeeded, the money fields come from it and from `getFees`, the total
honours the discount, and the atomically-created merchant transaction
carries the subtotal with the commission column at its DB default 0. -/
theorem createOrder_spec (env : Env) (nowMs oid : ℕ) (input : CreateOrderInput)
    (vs : List Voucher) (o : OrderRec) (vs' : List Voucher)
    (h : createOrder env nowMs oid input vs = .ok (o, vs')) :
    ∃ s recs, processItems env input.restaurantId input.items = .ok (s, recs) ∧
      o.subtotal = s ∧ o.items = recs ∧
      o.serviceFee =
        (getFees env.fees (some input.deliveryMethod) input.estimatedDistanceKm).1 ∧
      o.deliveryFee =
        (getFees env.fees (some input.deliveryMethod) input.estimatedDistanceKm).2 ∧
      o.total = o.subtotal + o.serviceFee + o.deliveryFee - o.discount ∧
      o.id = oid ∧
      o.transactions = [⟨oid, "merchant", s, 0, s, "pending"⟩] := by
  cases hcu : input.customerUserId with
  | none =>
    simp only [createOrder, hcu] at h
    exact Except.noConfusion h
  | some uid =>
    simp only [createOrder, hcu] at h
    by_cases hu : uid ∉ env.users
    · rw [if_pos hu] at h
      exact Except.noConfusion h
    · rw [if_neg hu] at h
      by_cases hres : input.restaurantId ∉ env.restaurants
      · rw [if_pos hres] at h
        exact Except.noConfusion h
      · rw [if_neg hres] at h
        cases hpi : processItems env input.restaurantId input.items with
        | error e =>
          rw [hpi] at h
          exact Except.noConfusion h
        | ok p =>
          obtain ⟨s, recs⟩ := p
          rw [hpi] at h
          simp only at h
          refine ⟨s, recs, rfl, ?_⟩
          cases hvc : input.voucherCode with
          | none =>
            simp only [hvc] at h
            injection h with h
            injection h with h1 h2
            subst h1
            refine ⟨rfl, rfl, rfl, rfl, ?_, rfl, rfl⟩
            ring
          | some vc =>
            simp only [hvc] at h
            cases hr : (applyVoucherToOrder vc oid uid
                (s + (getFees env.fees (some input.deliveryMethod)
                  input.estimatedDistanceKm).1 +
                 (getFees env.fees (some input.deliveryMethod)
                  input.estimatedDistanceKm).2) (nowMs : ℤ) vs).1 with
            | error e =>
              simp only [hr] at h
              injection h with h
              injection h with h1 h2
              subst h1
              refine ⟨rfl, rfl, rfl, rfl, ?_, rfl, rfl⟩
              ring
            | ok d =>
              simp only [hr] at h
              by_cases hd : d = 0
              · rw [if_pos hd] at h
                injection h with h
                injection h with h1 h2
                subst h1
                refine ⟨rfl, rfl, rfl, rfl, ?_, rfl, rfl⟩
                ring
              · rw [if_neg hd] at h
                injection h with h
                injection h with h1 h2
                subst h1
                refine ⟨rfl, rfl, rfl, rfl, ?_, rfl, rfl⟩
                ring

/-- Claim C1: every order createOrder returns satisfies
`total = subtotal + serviceFee + deliveryFee − discount` (discount 0
without a voucher, `totalBeforeDiscount − discount` after a successful
application), and its subtotal is the sum over the submitted items of
effective unit price × quantity. -/
theorem createOrder_total_invariant (env : Env) (nowMs oid : ℕ)
    (input : CreateOrderInput) (vs : List Voucher) (o : OrderRec) (vs' : List Voucher)
    (h : createOrder env nowMs oid input vs = .ok (o, vs')) :
    o.total = o.subtotal + o.serviceFee + o.deliveryFee - o.discount ∧
    o.subtotal = (o.items.map fun r => r.customPrice.getD r.price * (r.qty : ℚ)).sum ∧
    List.Forall₂ (lineSpec env) input.items o.items := by
  obtain ⟨s, recs, hpi, hsub, hitems, hsf, hdf, htot, hid, htx⟩ :=
    createOrder_spec env nowMs oid input vs o vs' h
  obtain ⟨hs, hf⟩ := processItems_spec env input.restaurantId input.items s recs hpi
  refine ⟨htot, ?_, ?_⟩
  · rw [hsub, hitems]
    exact hs
  · rw [hitems]
    exact hf

/-- Claim C10: the merchant Transaction written atomically by createOrder
has amount = netAmount = subtotal and commission 0, and a later
`ensureMerchantAndCourierTransactions` on a state that already holds a
merchant transaction for that order leaves the merchant ledger unchanged —
the commission-deducting merchant branch never runs for such orders. -/
theorem createOrder_merchantTxn_frame (env : Env) (nowMs oid : ℕ)
    (input : CreateOrderInput) (vs : List Voucher) (o : OrderRec) (vs' : List Voucher)
    (h : createOrder env nowMs oid input vs = .ok (o, vs')) :
    o.transactions = [⟨o.id, "merchant", o.subtotal, 0, o.subtotal, "pending"⟩] ∧
    ∀ (fs : FeeSettings) (db db' : Db),
      (db.txns.find? (fun t => t.orderId == o.id && t.beneficiary == "merchant")).isSome →
      ensureMerchantAndCourierTransactions fs o.id db = .ok db' →
      db'.txns.filter (fun t => t.beneficiary == "merchant") =
        db.txns.filter (fun t => t.beneficiary == "merchant") := by
  obtain ⟨s, recs, hpi, hsub, hitems, hsf, hdf, htot, hid, htx⟩ :=
    createOrder_spec env nowMs oid input vs o vs' h
  constructor
  · rw [htx, hid, hsub]
  · intro fs db db' hsome hens
    obtain ⟨order, horder, hords, hmiss, htxns⟩ := ensure_spec fs o.id db db' hens
    have hoid : order.id = o.id := by simpa using List.find?_some horder
    rw [hoid] at htxns
    rw [if_pos hsome, List.append_nil] at htxns
    cases hm2 : db.missions.find? (fun m => m.orderId == o.id) with
    | none =>
      rw [hm2] at htxns
      simp only [List.append_nil] at htxns
      rw [htxns]
    | some mission =>
      rw [hm2] at htxns
      simp only at htxns
      by_cases hcou :
          (db.txns.find? (fun t => t.orderId == o.id && t.beneficiary == "courier")).isSome
      · rw [if_pos hcou, List.append_nil] at htxns
        rw [htxns]
      · rw [if_neg hcou] at htxns
        rw [htxns, List.filter_append]
        have hc0 : List.filter (fun t => t.beneficiary == "merchant")
            [courierRowFor order mission] = [] := by
          simp [courierRowFor, List.filter]
        rw [hc0, List.append_nil]

/-- Witness environment: customer 7, restaurant 1 with one dish
(price 3000), default fee settings. -/
def envW : Env := ⟨[7], [1], [⟨1, 1, "Fufu", 3000⟩], ⟨1000, 1000, 500, 2000⟩⟩

/-- Witness input: two units of dish 1, campus delivery, cash on delivery,
no voucher. -/
def inputW : CreateOrderInput := ⟨some 7, "Alice", 1, [⟨1, 2, none⟩], "campus", "cod", none, none⟩

/-- The order the witness run produces: subtotal 6000, fees 1000 + 1000,
total 8000. -/
def orderW : OrderRec :=
  ⟨1, "ORD-000000", 7, 1, 6000, 1000, 1000, 0, 8000, "campus", "cod",
   "pending_confirmation", [⟨1, "Fufu", 3000, none, 2⟩],
   [⟨1, "merchant", 6000, 0, 6000, "pending"⟩]⟩

theorem createOrderW_run :
    createOrder envW 1760000000000 1 inputW [] = .ok (orderW, []) := by
  have hcode : orderCode 1760000000000 = "ORD-000000" := by decide
  norm_num [createOrder, processItems, effectivePrice, envW, inputW, orderW,
    getFees, hcode, jsMax, jsRound, List.find?]
  refine ⟨by decide, ?_⟩
  rw [if_neg (by decide : ¬("campus" = "pickup"))]
  norm_num

/-- Witness for C1 on the concrete run `createOrderW_run`. -/
theorem createOrder_total_invariant_witness :
    createOrder envW 1760000000000 1 inputW [] = .ok (orderW, []) ∧
    (orderW.total = orderW.subtotal + orderW.serviceFee + orderW.deliveryFee -
        orderW.discount ∧
     orderW.subtotal =
       (orderW.items.map fun r => r.customPrice.getD r.price * (r.qty : ℚ)).sum ∧
     List.Forall₂ (lineSpec envW) inputW.items orderW.items) :=
  ⟨createOrderW_run,
   createOrder_total_invariant envW 1760000000000 1 inputW [] orderW [] createOrderW_run⟩

/-- Witness for C10 on the concrete run `createOrderW_run`. -/
theorem createOrder_merchantTxn_frame_witness :
    createOrder envW 1760000000000 1 inputW [] = .ok (orderW, []) ∧
    (orderW.transactions =
        [⟨orderW.id, "merchant", orderW.subtotal, 0, orderW.subtotal, "pending"⟩] ∧
     ∀ (fs : FeeSettings) (db db' : Db),
       (db.txns.find?
         (fun t => t.orderId == orderW.id && t.beneficiary == "merchant")).isSome →
       ensureMerchantAndCourierTransactions fs orderW.id db = .ok db' →
       db'.txns.filter (fun t => t.beneficiary == "merchant") =
         db.txns.filter (fun t => t.beneficiary == "merchant")) :=
  ⟨createOrderW_run,
   createOrder_merchantTxn_frame envW 1760000000000 1 inputW [] orderW [] createOrderW_run⟩

end MalewaFac
